import Mathlib

/-!
nuiKnob: value mapping and drag interaction.

A shallow embedding of `src/src/SimpleWidgets/nuiKnob.cpp`.

Numbers of type `double` and `nuiSize` are embedded as rationals and their
arithmetic as exact arithmetic; a statement that needs an operation not to
round says so with `isDouble`.  A conversion to a 32-bit integer type drops the
fraction and has no result outside the range of the type.  Calls into the host
framework that carry no data (`Grab`, `Ungrab`, `Invalidate`,
`ActivateToolTip`) and the two knob events (`InteractiveValueChanged`,
`ValueChanged`) are recorded, in program order, in a trace.
-/

namespace nuiKnob

/-- Modelled from the spec: the class `nuiRange` (declared in `nuiRange.h`,
not among the sources).  The spec lists `minimum`, `maximum`, `value`,
`increment` and `pageSize`; the amount moved by a page step is left open by
the spec and is kept as a separate field. -/
structure nuiRange where
  mMinimum : ℚ
  mMaximum : ℚ
  mValue : ℚ
  mIncrement : ℚ
  mPageSize : ℚ
  mPageIncrement : ℚ
deriving DecidableEq

namespace nuiRange

def GetValue (r : nuiRange) : ℚ := r.mValue

def GetMinimum (r : nuiRange) : ℚ := r.mMinimum

def GetMaximum (r : nuiRange) : ℚ := r.mMaximum

def GetIncrement (r : nuiRange) : ℚ := r.mIncrement

def GetPageSize (r : nuiRange) : ℚ := r.mPageSize

/-- Modelled from the spec: `nuiRange::GetRange` is not among the sources; the
spec writes the span of the range as `max - min`. -/
def GetRange (r : nuiRange) : ℚ := r.mMaximum - r.mMinimum

/-- Modelled from the spec: `nuiRange::SetValue` is not among the sources; the
spec says every result is "clamped to `[min, max]`". -/
def SetValue (r : nuiRange) (v : ℚ) : nuiRange :=
  { r with mValue := if v < r.mMinimum then r.mMinimum
                     else if r.mMaximum < v then r.mMaximum else v }

/-- Modelled from the spec: `nuiRange::SetPageSize` is not among the sources. -/
def SetPageSize (r : nuiRange) (p : ℚ) : nuiRange := { r with mPageSize := p }

/-- Modelled from the spec: `nuiRange::Increment` is not among the sources; the
spec says a key step "applies `increment` to `value` (clamped)". -/
def Increment (r : nuiRange) : nuiRange := r.SetValue (r.mValue + r.mIncrement)

/-- Modelled from the spec: `nuiRange::Decrement` is not among the sources; the
counterpart of `Increment`. -/
def Decrement (r : nuiRange) : nuiRange := r.SetValue (r.mValue - r.mIncrement)

/-- Modelled from the spec: `nuiRange::PageIncrement` is not among the sources;
a clamped step by the page amount. -/
def PageIncrement (r : nuiRange) : nuiRange := r.SetValue (r.mValue + r.mPageIncrement)

/-- Modelled from the spec: `nuiRange::PageDecrement` is not among the sources;
a clamped step back by the page amount. -/
def PageDecrement (r : nuiRange) : nuiRange := r.SetValue (r.mValue - r.mPageIncrement)

end nuiRange

/-- Key codes tested by the knob; every other code is `NK_OTHER`. -/
inductive nglKeyCode where
  | NK_DOWN
  | NK_LEFT
  | NK_UP
  | NK_RIGHT
  | NK_PAGEUP
  | NK_PAGEDOWN
  | NK_HOME
  | NK_END
  | NK_OTHER (code : Nat)
deriving DecidableEq

/-- The bits of `nglMouseInfo::Flags`, one field per button bit: the test
`Button & nglMouseInfo::ButtonLeft` reads the field `ButtonLeft`. -/
structure Flags where
  ButtonLeft : Bool
  ButtonRight : Bool
  ButtonMiddle : Bool
  ButtonWheelUp : Bool
  ButtonWheelDown : Bool
  ButtonDoubleClick : Bool
deriving DecidableEq

/-- What a handler does to the outside, in program order. -/
inductive Signal where
  | InteractiveValueChanged
  | ValueChanged
  | Grab
  | Ungrab
  | Invalidate
  | ActivateToolTip
deriving DecidableEq

/-- The data members of `nuiKnob` read or written by the handlers below. -/
structure Knob where
  mRange : nuiRange
  mClicked : Bool
  mInteractiveValueChanged : Bool
  mClickX : ℚ
  mClickY : ℚ
  mClickValue : ℚ
  mSensitivity : ℚ
  mFineSensitivityRatio : ℚ
  mFrameIndex : Int
deriving DecidableEq

/-- Result of a handler: the knob afterwards, the returned `bool`, and the
signals it sent. -/
structure Outcome where
  knob : Knob
  handled : Bool
  trace : List Signal
deriving DecidableEq

/-- `nuiKnob::Init` (lines 41-64).  `raw` is the object before `Init` runs: the
members `Init` does not assign keep whatever `raw` holds.  The static defaults
are arguments since they can be changed at run time. -/
def Init (rRange : nuiRange) (mDefaultSensitivity mDefaultFineSensitivityRatio : ℚ)
    (raw : Knob) : Knob :=
  { raw with
    mRange := rRange.SetPageSize 0
    mClicked := false
    mFrameIndex := 0
    mSensitivity := mDefaultSensitivity
    mFineSensitivityRatio := mDefaultFineSensitivityRatio }

/-- `nuiKnob::Load` (lines 135-154), as far as the members above go. -/
def Load (mDefaultSensitivity mDefaultFineSensitivityRatio : ℚ) (k : Knob) : Knob :=
  { k with
    mClicked := false
    mInteractiveValueChanged := false
    mSensitivity := mDefaultSensitivity
    mFineSensitivityRatio := mDefaultFineSensitivityRatio }

/-- The tail shared by every handled key or wheel step:
`InteractiveValueChanged(); ActivateToolTip(this, true); return true;`. -/
def stepped (k : Knob) (r : nuiRange) : Outcome :=
  { knob := { k with mRange := r }
    handled := true
    trace := [Signal.InteractiveValueChanged, Signal.ActivateToolTip] }

/-- `nuiKnob::KeyDown` (lines 189-260); `fine` is `IsKeyDown(mFineSensitivityKey)`
and `key` is `rEvent.mKey`. -/
def KeyDown (key : nglKeyCode) (fine : Bool) (k : Knob) : Outcome :=
  let tail : Outcome :=
    if key = nglKeyCode.NK_PAGEDOWN then
      stepped k k.mRange.PageIncrement
    else if key = nglKeyCode.NK_PAGEDOWN then
      stepped k k.mRange.PageDecrement
    else if key = nglKeyCode.NK_HOME then
      stepped k (k.mRange.SetValue k.mRange.GetMinimum)
    else if key = nglKeyCode.NK_END then
      stepped k (k.mRange.SetValue k.mRange.GetMaximum)
    else
      { knob := k, handled := false, trace := [] }
  if fine then
    if key = nglKeyCode.NK_DOWN ∨ key = nglKeyCode.NK_LEFT then
      stepped k (k.mRange.SetValue
        (k.mRange.GetValue - k.mRange.GetIncrement / k.mFineSensitivityRatio))
    else if key = nglKeyCode.NK_UP ∨ key = nglKeyCode.NK_RIGHT then
      stepped k (k.mRange.SetValue
        (k.mRange.GetValue + k.mRange.GetIncrement / k.mFineSensitivityRatio))
    else tail
  else
    if key = nglKeyCode.NK_DOWN ∨ key = nglKeyCode.NK_LEFT then
      stepped k k.mRange.Decrement
    else if key = nglKeyCode.NK_UP ∨ key = nglKeyCode.NK_RIGHT then
      stepped k k.mRange.Increment
    else tail

/-- `nuiKnob::MouseClicked` (lines 273-320); `fine` is
`IsKeyDown(mFineSensitivityKey)`. -/
def MouseClicked (X Y : ℚ) (Button : Flags) (fine : Bool) (k : Knob) : Outcome :=
  let k1 : Knob := { k with mClickX := X, mClickY := Y }
  if Button.ButtonLeft && Button.ButtonDoubleClick then
    { knob := k1, handled := false, trace := [] }
  else if Button.ButtonLeft then
    { knob := { k1 with mClicked := true, mClickValue := k1.mRange.GetValue }
      handled := true
      trace := [Signal.Grab, Signal.Invalidate] }
  else if Button.ButtonWheelUp then
    if fine then
      stepped k1 (k1.mRange.SetValue
        (k1.mRange.GetValue + k1.mRange.GetIncrement / k1.mFineSensitivityRatio))
    else
      stepped k1 k1.mRange.Increment
  else if Button.ButtonWheelDown then
    if fine then
      stepped k1 (k1.mRange.SetValue
        (k1.mRange.GetValue - k1.mRange.GetIncrement / k1.mFineSensitivityRatio))
    else
      stepped k1 k1.mRange.Decrement
  else
    { knob := k1, handled := false, trace := [] }

/-- `nuiKnob::MouseUnclicked` (lines 322-338). -/
def MouseUnclicked (_X _Y : ℚ) (Button : Flags) (k : Knob) : Outcome :=
  let committed : List Signal :=
    if k.mInteractiveValueChanged then [Signal.ValueChanged] else []
  let k1 : Knob := { k with mInteractiveValueChanged := false }
  if Button.ButtonLeft then
    { knob := { k1 with mClicked := false }
      handled := true
      trace := committed ++ [Signal.Ungrab, Signal.Invalidate] }
  else
    { knob := k1, handled := false, trace := committed }

/-- `nuiKnob::MouseMoved` (lines 340-377); `fine` is
`IsKeyDown(mFineSensitivityKey)` and `range` is the value of
`sqrtf(GetRect().GetWidth() * GetRect().GetHeight())`. -/
def MouseMoved (X Y : ℚ) (fine : Bool) (range : ℚ) (k : Knob) : Outcome :=
  if k.mClicked then
    let sensitivity : ℚ :=
      if fine then k.mSensitivity * k.mFineSensitivityRatio else k.mSensitivity
    let x : ℚ := X - k.mClickX
    let y : ℚ := k.mClickY - Y
    let movement : ℚ := (x + y) / sensitivity
    let start : ℚ :=
      k.mClickValue + (k.mRange.GetRange - k.mRange.GetPageSize) * (movement / range)
    { knob := { k with mRange := k.mRange.SetValue start, mInteractiveValueChanged := true }
      handled := true
      trace := [Signal.InteractiveValueChanged] }
  else
    { knob := k, handled := false, trace := [] }

/-- The integer part of a number: the fraction is dropped (truncation toward
zero), as a conversion from floating point to an integer type does. -/
def truncate (q : ℚ) : Int := if 0 ≤ q then ⌊q⌋ else ⌈q⌉

/-- Conversion of a floating-point number to an integer type whose values are
`lo .. hi`: the integer part when it is a value of the type, and no result
(`none`, the behaviour is undefined) when it is not. -/
def convert (lo hi : Int) (q : ℚ) : Option Int :=
  if lo ≤ truncate q ∧ truncate q ≤ hi then some (truncate q) else none

/-- The cast `(int)q` of line 441, `int` having 32 bits. -/
def toInt (q : ℚ) : Option Int := convert (-(2 ^ 31)) (2 ^ 31 - 1) q

/-- The declared type of the member `mFrameIndex`.  Its declaration
(`nuiKnob.h`) is not among the sources: it is a 32-bit integer, either `int`
or `uint32`, and every statement below is made for both. -/
inductive IndexType where
  | int
  | uint32
deriving DecidableEq

namespace IndexType

/-- Least value of the type. -/
def minValue : IndexType → Int
  | int => -(2 ^ 31)
  | uint32 => 0

/-- Greatest value of the type. -/
def maxValue : IndexType → Int
  | int => 2 ^ 31 - 1
  | uint32 => 2 ^ 32 - 1

end IndexType

/-- The value stored in `mFrameIndex` by line 441.  `nbFrames` is the `uint32`
returned by `GetNbFrames()`, and `member` the type of `mFrameIndex`.  The cast
`(int)` binds tighter than `/`: the product is converted to `int` first, that
`int` is divided as a `double` by `GetMaximum() - GetMinimum()`, and the
assignment converts the quotient to the member's type.  There is no result
when a conversion is undefined or the divisor is zero (the quotient is then
infinite or not a number).  The `double` operations are taken as exact. -/
def frameIndex (member : IndexType) (nbFrames : Nat) (r : nuiRange) : Option Int :=
  let n1 : Nat := (nbFrames + 2 ^ 32 - 1) % 2 ^ 32
  match toInt ((n1 : ℚ) * (r.GetValue - r.GetMinimum)) with
  | none => none
  | some p =>
    if r.GetMaximum - r.GetMinimum = 0 then none
    else convert member.minValue member.maxValue ((p : ℚ) / (r.GetMaximum - r.GetMinimum))

/-- `nuiKnob::Draw` (lines 437-449); `sequence` is `none` when
`mpImageSequence` is null and otherwise holds its number of frames.  There is
no result when the frame index has none. -/
def Draw (member : IndexType) (sequence : Option Nat) (k : Knob) : Option Knob :=
  match sequence with
  | some nbFrames =>
    (frameIndex member nbFrames k.mRange).map fun i => { k with mFrameIndex := i }
  | none => some k

/-- One event delivered to the knob by the host. -/
inductive Input where
  | mouseClicked (X Y : ℚ) (Button : Flags) (fine : Bool)
  | mouseUnclicked (X Y : ℚ) (Button : Flags)
  | mouseMoved (X Y : ℚ) (fine : Bool) (range : ℚ)
  | keyDown (key : nglKeyCode) (fine : Bool)

/-- Dispatch of one event to its handler. -/
def step (k : Knob) : Input → Outcome
  | Input.mouseClicked X Y Button fine => MouseClicked X Y Button fine k
  | Input.mouseUnclicked X Y Button => MouseUnclicked X Y Button k
  | Input.mouseMoved X Y fine range => MouseMoved X Y fine range k
  | Input.keyDown key fine => KeyDown key fine k

/-- A sequence of events, delivered in order; the traces are concatenated. -/
def run (k : Knob) : List Input → Knob × List Signal
  | [] => (k, [])
  | i :: rest =>
    let o := step k i
    let r := run o.knob rest
    (r.1, o.trace ++ r.2)

/-- The range invariant `minimum ≤ value ≤ maximum`. -/
def inRange (r : nuiRange) : Prop := r.mMinimum ≤ r.mValue ∧ r.mValue ≤ r.mMaximum

instance (r : nuiRange) : Decidable (inRange r) := by
  unfold inRange; infer_instance

/-- The left mouse button alone. -/
def leftButton : Flags :=
  { ButtonLeft := true, ButtonRight := false, ButtonMiddle := false,
    ButtonWheelUp := false, ButtonWheelDown := false, ButtonDoubleClick := false }

/-- A range `[lo, hi]` holding `v`, stepping by `inc`, with no page. -/
def mkRange (lo hi v inc : ℚ) : nuiRange :=
  { mMinimum := lo, mMaximum := hi, mValue := v, mIncrement := inc,
    mPageSize := 0, mPageIncrement := 0 }

/-- An idle knob over `r` with the given sensitivity and fine ratio. -/
def mkKnob (r : nuiRange) (sens ratio : ℚ) : Knob :=
  { mRange := r, mClicked := false, mInteractiveValueChanged := false,
    mClickX := 0, mClickY := 0, mClickValue := 0,
    mSensitivity := sens, mFineSensitivityRatio := ratio, mFrameIndex := 0 }

/-- The frame index as the specification words it:
`floor((frameCount - 1) * (value - min) / (max - min))`. -/
def computeFrameIndex (frameCount : Nat) (r : nuiRange) : Int :=
  ⌊((frameCount : ℚ) - 1) * (r.mValue - r.mMinimum) / (r.mMaximum - r.mMinimum)⌋

/-- The specification's "clamped to `[lo, hi]`": `lo` below the interval, `hi`
above it, the number itself inside. -/
def clamp (lo hi v : ℚ) : ℚ := if v < lo then lo else if hi < v then hi else v

/-- One `MouseMoved` call of a drag: pointer position, state of the fine key,
and the value of `sqrtf(width * height)` at that moment. -/
structure Move where
  X : ℚ
  Y : ℚ
  fine : Bool
  range : ℚ
deriving DecidableEq

/-- The knob after a run of `MouseMoved` calls, oldest first. -/
def moveAll (k : Knob) : List Move → Knob
  | [] => k
  | m :: rest => moveAll (MouseMoved m.X m.Y m.fine m.range k).knob rest

/-- The condition under which the idle knob has no change pending. -/
def idleClean (k : Knob) : Prop := k.mClicked = false → k.mInteractiveValueChanged = false

/-- The wheel-up bit alone. -/
def wheelUpButton : Flags :=
  { ButtonLeft := false, ButtonRight := false, ButtonMiddle := false,
    ButtonWheelUp := true, ButtonWheelDown := false, ButtonDoubleClick := false }

/-- The wheel-down bit alone. -/
def wheelDownButton : Flags :=
  { ButtonLeft := false, ButtonRight := false, ButtonMiddle := false,
    ButtonWheelUp := false, ButtonWheelDown := true, ButtonDoubleClick := false }

end nuiKnob

/-!
jstl.h: compile-time arithmetic on `size_t`.

A shallow embedding of the templates of `src/deps/tracemonkey/jstl.h` used by
`MulOverflowMask`.  `w` is `BitSize<size_t>::result`, the number of bits of
`size_t`; a `size_t` is a natural number below `2 ^ w` and its arithmetic is
taken modulo `2 ^ w`.  A template without a `result` member (the specialisations
marked `Error`, a failed `StaticAssert`) gives `none`.
-/

namespace js

namespace tl

/-- `FloorLog2<i>` (lines 73-77): `FloorLog2<0>` has no result,
`FloorLog2<1>` is `0`, and otherwise `1 + FloorLog2<i / 2>::result`. -/
def FloorLog2 (w : Nat) (i : Nat) : Option Nat :=
  if i = 0 then none
  else if i = 1 then some 0
  else (FloorLog2 w (i / 2)).map fun r => (1 + r) % 2 ^ w
termination_by i
decreasing_by omega

/-- `CeilingLog2<i>` (lines 80-82): `FloorLog2<2 * i - 1>::result`. -/
def CeilingLog2 (w : Nat) (i : Nat) : Option Nat :=
  FloorLog2 w ((2 * i % 2 ^ w + 2 ^ w - 1) % 2 ^ w)

/-- `NBitMask<N>` (lines 113-119): `size_t(-1)` for `N` equal to the bit size,
`(size_t(1) << N) - 1` for `N` below it, and no result above it (the
`StaticAssert` fails). -/
def NBitMask (w : Nat) (N : Nat) : Option Nat :=
  if N = w then some (2 ^ w - 1)
  else if N < w then some (((1 <<< N) % 2 ^ w + 2 ^ w - 1) % 2 ^ w)
  else none

/-- `MulOverflowMask<N>` (lines 125-130): no result for `0`, `0` for `1`, and
otherwise `~NBitMask<BitSize<size_t>::result - CeilingLog2<N>::result>::result`. -/
def MulOverflowMask (w : Nat) (N : Nat) : Option Nat :=
  if N = 0 then none
  else if N = 1 then some 0
  else
    match CeilingLog2 w N with
    | none => none
    | some c =>
      match NBitMask w ((w % 2 ^ w + 2 ^ w - c) % 2 ^ w) with
      | none => none
      | some m => some (2 ^ w - 1 - m)

end tl

end js

namespace nuiKnob

/-! ## Helper lemmas -/

theorem SetValue_bounds (r : nuiRange) (v : ℚ) (h : r.mMinimum ≤ r.mMaximum) :
    inRange (r.SetValue v) := by
  unfold inRange nuiRange.SetValue
  dsimp only
  split_ifs with h1 h2
  · exact ⟨le_refl _, h⟩
  · exact ⟨h, le_refl _⟩
  · exact ⟨not_lt.mp h1, not_lt.mp h2⟩

/-- Every handler either leaves the range alone or writes it through `SetValue`. -/
theorem step_range_cases (k : Knob) (i : Input) :
    (step k i).knob.mRange = k.mRange ∨ ∃ v, (step k i).knob.mRange = k.mRange.SetValue v := by
  cases i <;> simp only [step, MouseClicked, MouseUnclicked, MouseMoved, KeyDown] <;>
    split_ifs <;> first | exact Or.inl rfl | exact Or.inr ⟨_, rfl⟩

/-- C1: in a knob whose range has `minimum ≤ maximum` and whose value lies in
`[minimum, maximum]`, every event handler (`MouseClicked` with any buttons,
`MouseMoved` with any coordinates, `MouseUnclicked`, `KeyDown` with any key,
each with or without the fine modifier) leaves the value in
`[minimum, maximum]`, the bounds themselves being unchanged. -/
theorem range_invariant_preserved (k : Knob) (i : Input)
    (hmm : k.mRange.mMinimum ≤ k.mRange.mMaximum) (hin : inRange k.mRange) :
    inRange (step k i).knob.mRange
      ∧ (step k i).knob.mRange.mMinimum = k.mRange.mMinimum
      ∧ (step k i).knob.mRange.mMaximum = k.mRange.mMaximum := by
  rcases step_range_cases k i with h | ⟨v, h⟩
  · rw [h]
    exact ⟨hin, rfl, rfl⟩
  · rw [h]
    exact ⟨SetValue_bounds _ v hmm, rfl, rfl⟩

/-- Witness for C1: a drag update with a huge pointer delta on the range
`[0, 100]` holding `50`. -/
theorem range_invariant_preserved_witness :
    inRange (step (MouseClicked 0 0 leftButton false (mkKnob (mkRange 0 100 50 5) 10 10)).knob
        (Input.mouseMoved 1000000000 0 false 40)).knob.mRange
      ∧ (step (MouseClicked 0 0 leftButton false (mkKnob (mkRange 0 100 50 5) 10 10)).knob
        (Input.mouseMoved 1000000000 0 false 40)).knob.mRange.mMinimum = 0
      ∧ (step (MouseClicked 0 0 leftButton false (mkKnob (mkRange 0 100 50 5) 10 10)).knob
        (Input.mouseMoved 1000000000 0 false 40)).knob.mRange.mMaximum = 100 :=
  range_invariant_preserved
    (MouseClicked 0 0 leftButton false (mkKnob (mkRange 0 100 50 5) 10 10)).knob
    (Input.mouseMoved 1000000000 0 false 40) (by decide!) (by decide!)

/-! ## C2 -/

/-- C2: with ten frames on the range `[0, 1000000000]` and the value at the
maximum (a range with `minimum < maximum` and a value inside it), the product
`(10 - 1) * (value - minimum)` is `9000000000`, which is not a value of `int`:
the cast `(int)` of line 441, applied to the product and not to the quotient
(which is `9`), has no defined result, and neither has the frame index,
whichever 32-bit type `mFrameIndex` has. -/
theorem frameIndex_undefined_on_wide_range :
    (mkRange 0 1000000000 1000000000 1).mMinimum < (mkRange 0 1000000000 1000000000 1).mMaximum
      ∧ inRange (mkRange 0 1000000000 1000000000 1)
      ∧ toInt (((10 : ℚ) - 1) * ((mkRange 0 1000000000 1000000000 1).mValue
          - (mkRange 0 1000000000 1000000000 1).mMinimum)) = none
      ∧ frameIndex IndexType.int 10 (mkRange 0 1000000000 1000000000 1) = none
      ∧ frameIndex IndexType.uint32 10 (mkRange 0 1000000000 1000000000 1) = none
      ∧ computeFrameIndex 10 (mkRange 0 1000000000 1000000000 1) = 9 := by
  refine ⟨by decide!, by decide!, by decide!, by decide!, by decide!, by decide!⟩

/-! ## C3 -/

/-- C3: the index stored by `Draw` is not always the specified
`floor((frameCount - 1) * (value - min) / (max - min))`: with two frames on the
range `[0, 3/2]` and the value at the maximum, `Draw` stores frame `0` where
the formula gives the last frame `1`, whichever 32-bit type `mFrameIndex` has.
On the three examples of the specification (ten frames, range `[0, 100]`) both
give `9`, `0` and `4`. -/
theorem frameIndex_differs_from_floor (member : IndexType) :
    frameIndex member 2 (mkRange 0 (3 / 2) (3 / 2) 1) = some 0
      ∧ computeFrameIndex 2 (mkRange 0 (3 / 2) (3 / 2) 1) = 1
      ∧ frameIndex member 10 (mkRange 0 100 100 5) = some 9
      ∧ frameIndex member 10 (mkRange 0 100 0 5) = some 0
      ∧ frameIndex member 10 (mkRange 0 100 50 5) = some 4
      ∧ computeFrameIndex 10 (mkRange 0 100 100 5) = 9
      ∧ computeFrameIndex 10 (mkRange 0 100 0 5) = 0
      ∧ computeFrameIndex 10 (mkRange 0 100 50 5) = 4 := by
  cases member <;>
    refine ⟨by decide!, by decide!, by decide!, by decide!, by decide!, by decide!,
      by decide!, by decide!⟩

/-! ## C4 -/

/-- While the button is held, `MouseMoved` keeps the button state, the anchor,
the start value, the sensitivities and the bounds of the range. -/
theorem MouseMoved_frame (X Y : ℚ) (fine : Bool) (range : ℚ) (k : Knob) :
    (MouseMoved X Y fine range k).knob.mClicked = k.mClicked
      ∧ (MouseMoved X Y fine range k).knob.mClickX = k.mClickX
      ∧ (MouseMoved X Y fine range k).knob.mClickY = k.mClickY
      ∧ (MouseMoved X Y fine range k).knob.mClickValue = k.mClickValue
      ∧ (MouseMoved X Y fine range k).knob.mSensitivity = k.mSensitivity
      ∧ (MouseMoved X Y fine range k).knob.mFineSensitivityRatio = k.mFineSensitivityRatio
      ∧ (MouseMoved X Y fine range k).knob.mRange.mMinimum = k.mRange.mMinimum
      ∧ (MouseMoved X Y fine range k).knob.mRange.mMaximum = k.mRange.mMaximum
      ∧ (MouseMoved X Y fine range k).knob.mRange.mPageSize = k.mRange.mPageSize := by
  unfold MouseMoved
  split_ifs <;> exact ⟨rfl, rfl, rfl, rfl, rfl, rfl, rfl, rfl, rfl⟩

theorem moveAll_frame (moves : List Move) (k : Knob) :
    (moveAll k moves).mClicked = k.mClicked
      ∧ (moveAll k moves).mClickX = k.mClickX
      ∧ (moveAll k moves).mClickY = k.mClickY
      ∧ (moveAll k moves).mClickValue = k.mClickValue
      ∧ (moveAll k moves).mSensitivity = k.mSensitivity
      ∧ (moveAll k moves).mFineSensitivityRatio = k.mFineSensitivityRatio
      ∧ (moveAll k moves).mRange.mMinimum = k.mRange.mMinimum
      ∧ (moveAll k moves).mRange.mMaximum = k.mRange.mMaximum
      ∧ (moveAll k moves).mRange.mPageSize = k.mRange.mPageSize := by
  induction moves generalizing k with
  | nil => exact ⟨rfl, rfl, rfl, rfl, rfl, rfl, rfl, rfl, rfl⟩
  | cons m rest ih =>
    obtain ⟨a1, a2, a3, a4, a5, a6, a7, a8, a9⟩ := MouseMoved_frame m.X m.Y m.fine m.range k
    obtain ⟨b1, b2, b3, b4, b5, b6, b7, b8, b9⟩ := ih (MouseMoved m.X m.Y m.fine m.range k).knob
    simp only [moveAll]
    exact ⟨b1.trans a1, b2.trans a2, b3.trans a3, b4.trans a4, b5.trans a5, b6.trans a6,
      b7.trans a7, b8.trans a8, b9.trans a9⟩

/-- What a left click (not a double click) captures. -/
theorem MouseClicked_left (X0 Y0 : ℚ) (Button : Flags) (fine0 : Bool) (k0 : Knob)
    (hleft : Button.ButtonLeft = true) (hsingle : Button.ButtonDoubleClick = false) :
    (MouseClicked X0 Y0 Button fine0 k0).knob
      = { k0 with mClickX := X0, mClickY := Y0, mClicked := true,
                  mClickValue := k0.mRange.mValue } := by
  simp [MouseClicked, hleft, hsingle, nuiRange.GetValue]

/-- The value written by `MouseMoved` on a knob whose button is held. -/
theorem MouseMoved_value (X Y : ℚ) (fine : Bool) (range : ℚ) (k : Knob)
    (hc : k.mClicked = true) :
    (MouseMoved X Y fine range k).knob.mRange.mValue
      = clamp k.mRange.mMinimum k.mRange.mMaximum
          (k.mClickValue + (k.mRange.mMaximum - k.mRange.mMinimum - k.mRange.mPageSize)
            * (((X - k.mClickX) + (k.mClickY - Y))
                / (if fine then k.mSensitivity * k.mFineSensitivityRatio else k.mSensitivity)
                / range)) := by
  simp only [MouseMoved, hc, if_true, nuiRange.SetValue, nuiRange.GetRange,
    nuiRange.GetPageSize, clamp]

/-- C4: in a drag begun by a left click at `(X0, Y0)` on a knob holding
`startValue`, after any number of earlier `MouseMoved` calls, a `MouseMoved` to
`(X, Y)` with non-zero sensitivity and non-zero geometric scale `range` sets the
value to `startValue + (maximum - minimum - pageSize) *
(((X - X0) + (Y0 - Y)) / sensitivity / range)` clamped to `[minimum, maximum]`,
where `sensitivity` is `mSensitivity * mFineSensitivityRatio` with the fine key
down and `mSensitivity` otherwise. -/
theorem drag_value_formula (k0 : Knob) (X0 Y0 : ℚ) (Button : Flags) (fine0 : Bool)
    (moves : List Move) (X Y : ℚ) (fine : Bool) (range : ℚ)
    (hleft : Button.ButtonLeft = true) (hsingle : Button.ButtonDoubleClick = false)
    (_hs : (if fine then k0.mSensitivity * k0.mFineSensitivityRatio else k0.mSensitivity) ≠ 0)
    (_hr : range ≠ 0) :
    (MouseMoved X Y fine range
        (moveAll (MouseClicked X0 Y0 Button fine0 k0).knob moves)).knob.mRange.mValue
      = clamp k0.mRange.mMinimum k0.mRange.mMaximum
          (k0.mRange.mValue
            + (k0.mRange.mMaximum - k0.mRange.mMinimum - k0.mRange.mPageSize)
              * (((X - X0) + (Y0 - Y))
                  / (if fine then k0.mSensitivity * k0.mFineSensitivityRatio
                     else k0.mSensitivity)
                  / range)) := by
  rw [MouseClicked_left X0 Y0 Button fine0 k0 hleft hsingle]
  obtain ⟨b1, b2, b3, b4, b5, b6, b7, b8, b9⟩ :=
    moveAll_frame moves { k0 with mClickX := X0, mClickY := Y0, mClicked := true,
                                  mClickValue := k0.mRange.mValue }
  rw [MouseMoved_value X Y fine range _ (by rw [b1]), b2, b3, b4, b5, b6, b7, b8, b9]

/-- Witness for C4: on `[0, 100]` from `50`, sensitivity `10`, scale `40`,
after one earlier move, dragging `80` to the right adds `100 * (80 / 10 / 40)`. -/
theorem drag_value_formula_witness :
    (MouseMoved 80 0 false 40
        (moveAll (MouseClicked 0 0 leftButton false (mkKnob (mkRange 0 100 50 5) 10 10)).knob
          [Move.mk 3 7 true 40])).knob.mRange.mValue = 70 := by
  have h := drag_value_formula (mkKnob (mkRange 0 100 50 5) 10 10) 0 0 leftButton false
    [Move.mk 3 7 true 40] 80 0 false 40 rfl rfl (by decide!) (by decide!)
  rw [h]
  decide!

/-! ## C5 -/

/-- C5: on a knob whose button is not held (`mClicked` false), `MouseMoved`
returns `false`, changes no member (value, anchor, start value and pending
flag included) and sends nothing. -/
theorem MouseMoved_idle (X Y : ℚ) (fine : Bool) (range : ℚ) (k : Knob)
    (hidle : k.mClicked = false) :
    MouseMoved X Y fine range k = { knob := k, handled := false, trace := [] } := by
  simp [MouseMoved, hidle]

/-- Witness for C5: an idle knob on `[0, 100]` holding `50`. -/
theorem MouseMoved_idle_witness :
    MouseMoved 12 (-7) true 40 (mkKnob (mkRange 0 100 50 5) 10 10)
      = { knob := mkKnob (mkRange 0 100 50 5) 10 10, handled := false, trace := [] } :=
  MouseMoved_idle 12 (-7) true 40 (mkKnob (mkRange 0 100 50 5) 10 10) rfl

/-! ## C6 -/

/-- Every handler keeps "idle implies nothing pending". -/
theorem step_idleClean (k : Knob) (i : Input) (h : idleClean k) :
    idleClean (step k i).knob := by
  unfold idleClean at h ⊢
  cases i <;> simp only [step, MouseClicked, MouseUnclicked, MouseMoved, KeyDown, stepped] <;>
    split_ifs <;> simp_all

/-- A knob set up by `Load` is idle with nothing pending. -/
theorem Load_idleClean (s r : ℚ) (k : Knob) : idleClean (Load s r k) := fun _ => rfl

/-- Every run of events keeps "idle implies nothing pending". -/
theorem run_idleClean (inputs : List Input) (k : Knob) (h : idleClean k) :
    idleClean (run k inputs).1 := by
  induction inputs generalizing k with
  | nil => exact h
  | cons i rest ih => exact ih _ (step_idleClean k i h)

/-- With nothing pending, a left click followed at once by the release sends no
`ValueChanged` and keeps the value. -/
theorem click_release_clean (k : Knob) (X Y X1 Y1 : ℚ) (fine : Bool)
    (h : k.mInteractiveValueChanged = false) :
    (MouseUnclicked X1 Y1 leftButton (MouseClicked X Y leftButton fine k).knob).trace
        = [Signal.Ungrab, Signal.Invalidate]
      ∧ (MouseUnclicked X1 Y1 leftButton
          (MouseClicked X Y leftButton fine k).knob).knob.mRange.mValue = k.mRange.mValue := by
  simp [MouseUnclicked, MouseClicked, leftButton, h]

/-- C6: `Init` does not assign `mInteractiveValueChanged`.  When the object
held `true` there before `Init`, the knob is idle after `Init`, and a left
click followed at once by the release sends `ValueChanged` (the value itself
is kept). -/
theorem fresh_knob_click_release_commits (rRange : nuiRange) (s r : ℚ) (raw : Knob)
    (X Y X1 Y1 : ℚ) (fine : Bool) :
    (Init rRange s r { raw with mInteractiveValueChanged := true }).mClicked = false
      ∧ (MouseUnclicked X1 Y1 leftButton
          (MouseClicked X Y leftButton fine
            (Init rRange s r { raw with mInteractiveValueChanged := true })).knob).trace
        = [Signal.ValueChanged, Signal.Ungrab, Signal.Invalidate]
      ∧ (MouseUnclicked X1 Y1 leftButton
          (MouseClicked X Y leftButton fine
            (Init rRange s r { raw with mInteractiveValueChanged := true })).knob).knob.mRange.mValue
        = rRange.mValue := by
  simp [MouseUnclicked, MouseClicked, leftButton, Init, nuiRange.SetPageSize]

/-! ## C7 -/

/-- After at least one `MouseMoved` with the button held a change is pending;
with none the flag is as before. -/
theorem moveAll_pending (moves : List Move) (k : Knob) (hc : k.mClicked = true) :
    (moveAll k moves).mInteractiveValueChanged
      = (k.mInteractiveValueChanged || !moves.isEmpty) := by
  cases moves with
  | nil => simp [moveAll]
  | cons m rest =>
    simp only [moveAll, List.isEmpty_cons, Bool.not_false, Bool.or_true]
    have h1 : (MouseMoved m.X m.Y m.fine m.range k).knob.mInteractiveValueChanged = true := by
      simp [MouseMoved, hc]
    have h2 : (MouseMoved m.X m.Y m.fine m.range k).knob.mClicked = true := by
      simp [MouseMoved, hc]
    generalize (MouseMoved m.X m.Y m.fine m.range k).knob = k1 at h1 h2
    induction rest generalizing k1 with
    | nil => simpa [moveAll] using h1
    | cons m2 rest2 ih =>
      simp only [moveAll]
      apply ih
      · simp [MouseMoved, h2]
      · simp [MouseMoved, h2]

/-- The number of `ValueChanged` sent by `MouseUnclicked`. -/
theorem MouseUnclicked_commits (X Y : ℚ) (Button : Flags) (k : Knob) :
    List.count Signal.ValueChanged (MouseUnclicked X Y Button k).trace
      = if k.mInteractiveValueChanged = true then 1 else 0 := by
  unfold MouseUnclicked
  cases hb : Button.ButtonLeft <;> cases hf : k.mInteractiveValueChanged <;> simp

/-- C7, as the code has it: at the end of a drag session (left click, any
number of `MouseMoved` calls, release with any buttons) `MouseUnclicked` sends
`ValueChanged` once when the session had at least one `MouseMoved` call or a
change was already pending at the click, and not at all otherwise. -/
theorem commit_iff_moved (k0 : Knob) (X0 Y0 : ℚ) (Button : Flags) (fine0 : Bool)
    (moves : List Move) (X Y : ℚ) (Button1 : Flags)
    (hleft : Button.ButtonLeft = true) (hsingle : Button.ButtonDoubleClick = false) :
    List.count Signal.ValueChanged
        (MouseUnclicked X Y Button1
          (moveAll (MouseClicked X0 Y0 Button fine0 k0).knob moves)).trace
      = if k0.mInteractiveValueChanged = true ∨ moves ≠ [] then 1 else 0 := by
  rw [MouseUnclicked_commits, MouseClicked_left X0 Y0 Button fine0 k0 hleft hsingle,
    moveAll_pending moves _ rfl]
  cases moves <;> simp

/-- Witness for C7 as amended: one move back to the anchor, then release. -/
theorem commit_iff_moved_witness :
    List.count Signal.ValueChanged
        (MouseUnclicked 0 0 leftButton
          (moveAll (MouseClicked 0 0 leftButton false (mkKnob (mkRange 0 100 50 5) 10 10)).knob
            [Move.mk 0 0 false 40])).trace = 1 := by
  have h := commit_iff_moved (mkKnob (mkRange 0 100 50 5) 10 10) 0 0 leftButton false
    [Move.mk 0 0 false 40] 0 0 leftButton rfl rfl
  rw [h]
  decide

/-- C7 fails as stated: on `[0, 100]` from `50`, a left click at `(0, 0)`, one
`MouseMoved` to `(0, 0)` and the release end with the value equal to the value
captured at the click, yet `MouseUnclicked` sends `ValueChanged`. -/
theorem commit_without_change :
    ¬ (Signal.ValueChanged ∈
          (MouseUnclicked 0 0 leftButton
            (moveAll (MouseClicked 0 0 leftButton false
              (mkKnob (mkRange 0 100 50 5) 10 10)).knob [Move.mk 0 0 false 40])).trace
        ↔ (moveAll (MouseClicked 0 0 leftButton false
              (mkKnob (mkRange 0 100 50 5) 10 10)).knob [Move.mk 0 0 false 40]).mRange.mValue
          ≠ (MouseClicked 0 0 leftButton false
              (mkKnob (mkRange 0 100 50 5) 10 10)).knob.mClickValue) := by
  decide!

/-! ## C8 -/

/-- C9: `KeyDown` with `NK_UP` or `NK_RIGHT` sets the value to
`value + increment` clamped to `[minimum, maximum]` without the fine key, and
to `value + increment / fineRatio` clamped with it; on `[0, 100]` with
increment `5`, fine ratio `10` and value `50` the results are `55` and
`50.5`. -/
theorem key_increment_value (k : Knob) :
    (KeyDown nglKeyCode.NK_UP false k).knob.mRange.mValue
        = clamp k.mRange.mMinimum k.mRange.mMaximum (k.mRange.mValue + k.mRange.mIncrement)
      ∧ (KeyDown nglKeyCode.NK_RIGHT false k).knob.mRange.mValue
        = clamp k.mRange.mMinimum k.mRange.mMaximum (k.mRange.mValue + k.mRange.mIncrement)
      ∧ (KeyDown nglKeyCode.NK_UP true k).knob.mRange.mValue
        = clamp k.mRange.mMinimum k.mRange.mMaximum
            (k.mRange.mValue + k.mRange.mIncrement / k.mFineSensitivityRatio)
      ∧ (KeyDown nglKeyCode.NK_RIGHT true k).knob.mRange.mValue
        = clamp k.mRange.mMinimum k.mRange.mMaximum
            (k.mRange.mValue + k.mRange.mIncrement / k.mFineSensitivityRatio)
      ∧ (KeyDown nglKeyCode.NK_UP false
          (mkKnob (mkRange 0 100 50 5) 10 10)).knob.mRange.mValue = 55
      ∧ (KeyDown nglKeyCode.NK_UP true
          (mkKnob (mkRange 0 100 50 5) 10 10)).knob.mRange.mValue = 101 / 2 := by
  refine ⟨?_, ?_, ?_, ?_, by decide!, by decide!⟩ <;>
    simp [KeyDown, stepped, clamp, nuiRange.Increment, nuiRange.SetValue, nuiRange.GetValue,
      nuiRange.GetIncrement]

/-! ## C10 -/

/-- The keys that `KeyDown` handles send one `InteractiveValueChanged`, no
`ValueChanged`, and return `true`. -/
theorem KeyDown_handled_keys (k : Knob) (fine : Bool) (key : nglKeyCode)
    (hkey : key = nglKeyCode.NK_UP ∨ key = nglKeyCode.NK_RIGHT ∨ key = nglKeyCode.NK_DOWN
      ∨ key = nglKeyCode.NK_LEFT ∨ key = nglKeyCode.NK_PAGEDOWN ∨ key = nglKeyCode.NK_HOME
      ∨ key = nglKeyCode.NK_END) :
    (KeyDown key fine k).handled = true
      ∧ (KeyDown key fine k).trace = [Signal.InteractiveValueChanged, Signal.ActivateToolTip] := by
  rcases hkey with h | h | h | h | h | h | h <;> subst h <;> cases fine <;>
    simp [KeyDown, stepped]

/-- C10: `KeyDown` tests `NK_PAGEDOWN` twice and `NK_PAGEUP` never: the page-up
key is not handled (`false` is returned), nothing is sent and the knob is
unchanged, with or without the fine key; the page-down key runs
`PageIncrement`. -/
theorem KeyDown_pageup_unhandled (k : Knob) (fine : Bool) :
    KeyDown nglKeyCode.NK_PAGEUP fine k = { knob := k, handled := false, trace := [] }
      ∧ KeyDown nglKeyCode.NK_PAGEDOWN fine k = stepped k k.mRange.PageIncrement := by
  cases fine <;> simp [KeyDown]

/-! ## C11 -/

/-- C11, as the code has it: `MouseClicked` at `(X, Y)` with a wheel bit and
without the left bit returns the same flag, sends the same signals and leaves
the same knob as `KeyDown` with `NK_UP` (wheel up) or `NK_DOWN` (wheel down)
under the same state of the fine key, except that the anchor `mClickX`,
`mClickY` is set to `(X, Y)`: value, `mClicked`, `mClickValue` and
`mInteractiveValueChanged` coincide. -/
theorem wheel_step_eq_key_step (k : Knob) (X Y : ℚ) (Button : Flags) (fine up : Bool)
    (hleft : Button.ButtonLeft = false)
    (hdir : if up then Button.ButtonWheelUp = true
            else Button.ButtonWheelUp = false ∧ Button.ButtonWheelDown = true) :
    (MouseClicked X Y Button fine k).knob
        = { (KeyDown (if up then nglKeyCode.NK_UP else nglKeyCode.NK_DOWN) fine k).knob with
            mClickX := X, mClickY := Y }
      ∧ (MouseClicked X Y Button fine k).handled
        = (KeyDown (if up then nglKeyCode.NK_UP else nglKeyCode.NK_DOWN) fine k).handled
      ∧ (MouseClicked X Y Button fine k).trace
        = (KeyDown (if up then nglKeyCode.NK_UP else nglKeyCode.NK_DOWN) fine k).trace := by
  cases up <;> cases fine <;>
    simp_all [MouseClicked, KeyDown, stepped, nuiRange.Increment, nuiRange.Decrement,
      nuiRange.SetValue, nuiRange.GetValue, nuiRange.GetIncrement]

/-- Witness for C11 as amended: wheel down at `(3, 4)` with the fine key down
on `[0, 100]` holding `50`. -/
theorem wheel_step_eq_key_step_witness :
    (MouseClicked 3 4 wheelDownButton true (mkKnob (mkRange 0 100 50 5) 10 10)).knob
        = { (KeyDown nglKeyCode.NK_DOWN true (mkKnob (mkRange 0 100 50 5) 10 10)).knob with
            mClickX := 3, mClickY := 4 }
      ∧ (MouseClicked 3 4 wheelDownButton true (mkKnob (mkRange 0 100 50 5) 10 10)).handled
        = (KeyDown nglKeyCode.NK_DOWN true (mkKnob (mkRange 0 100 50 5) 10 10)).handled
      ∧ (MouseClicked 3 4 wheelDownButton true (mkKnob (mkRange 0 100 50 5) 10 10)).trace
        = (KeyDown nglKeyCode.NK_DOWN true (mkKnob (mkRange 0 100 50 5) 10 10)).trace :=
  wheel_step_eq_key_step (mkKnob (mkRange 0 100 50 5) 10 10) 3 4 wheelDownButton true false
    rfl ⟨rfl, rfl⟩

/-- C11 fails as stated: on a knob whose anchor is `(0, 0)`, a wheel-up click at
`(3, 4)` leaves the anchor at `(3, 4)` where the `NK_UP` key leaves it at
`(0, 0)`, so the two resulting knobs differ. -/
theorem wheel_step_moves_anchor :
    (MouseClicked 3 4 wheelUpButton false (mkKnob (mkRange 0 100 50 5) 10 10)).knob.mClickX = 3
      ∧ (MouseClicked 3 4 wheelUpButton false (mkKnob (mkRange 0 100 50 5) 10 10)).knob.mClickY = 4
      ∧ (KeyDown nglKeyCode.NK_UP false (mkKnob (mkRange 0 100 50 5) 10 10)).knob.mClickX = 0
      ∧ (KeyDown nglKeyCode.NK_UP false (mkKnob (mkRange 0 100 50 5) 10 10)).knob.mClickY = 0
      ∧ (MouseClicked 3 4 wheelUpButton false (mkKnob (mkRange 0 100 50 5) 10 10)).knob
        ≠ (KeyDown nglKeyCode.NK_UP false (mkKnob (mkRange 0 100 50 5) 10 10)).knob := by
  refine ⟨by decide!, by decide!, by decide!, by decide!, by decide!⟩

/-! ## C13 -/

end nuiKnob

namespace js

namespace tl

/-! ## C12 -/

/-- `FloorLog2<i>` has a result for every `size_t` `i ≥ 1`, and the result `c`
satisfies `2 ^ c ≤ i < 2 ^ (c + 1)`. -/
theorem FloorLog2_spec (w : Nat) (i : Nat) (h1 : 1 ≤ i) (hw : i < 2 ^ w) :
    ∃ c, FloorLog2 w i = some c ∧ 2 ^ c ≤ i ∧ i < 2 ^ (c + 1) := by
  induction i using Nat.strong_induction_on with
  | _ i ih =>
    by_cases hi : i = 1
    · subst hi
      refine ⟨0, ?_, by simp, by simp⟩
      rw [FloorLog2]
      simp
    · have h2 : 1 ≤ i / 2 := by omega
      have hlt : i / 2 < i := by omega
      have hw2 : i / 2 < 2 ^ w := lt_trans hlt hw
      obtain ⟨c, hc, hlo, hhi⟩ := ih (i / 2) hlt h2 hw2
      have hlo2 : 2 ^ (c + 1) ≤ i := by
        rw [pow_succ]
        omega
      have hhi2 : i < 2 ^ (c + 1 + 1) := by
        rw [pow_succ 2 (c + 1)]
        omega
      have hcw : c + 1 < w := by
        have : 2 ^ (c + 1) < 2 ^ w := lt_of_le_of_lt hlo2 hw
        exact (Nat.pow_lt_pow_iff_right (by decide)).mp this
      have hsmall : 1 + c < 2 ^ w := by
        have := Nat.lt_two_pow w
        omega
      refine ⟨c + 1, ?_, hlo2, hhi2⟩
      rw [FloorLog2]
      have h0 : i ≠ 0 := by omega
      simp only [h0, hi, if_false, hc, Option.map_some']
      rw [Nat.mod_eq_of_lt hsmall, Nat.add_comm]

/-- A `size_t` with no bit in common with `~(2 ^ m - 1)` is below `2 ^ m`. -/
theorem lt_of_and_not_mask (w m X : Nat) (hX : X < 2 ^ w)
    (hand : X &&& (2 ^ w - 1 - (2 ^ m - 1)) = 0) : X < 2 ^ m := by
  apply Nat.lt_pow_two_of_testBit
  intro i hi
  by_cases hiw : i < w
  · have hbit := congrArg (fun n => Nat.testBit n i) hand
    simp only [Nat.testBit_and, Nat.zero_testBit] at hbit
    have hmw : m ≤ w := by omega
    have hpm : 2 ^ m ≤ 2 ^ w := Nat.pow_le_pow_right (by decide) hmw
    have hmask : 2 ^ w - 1 - (2 ^ m - 1) = 2 ^ w - ((2 ^ m - 1) + 1) := by omega
    have hlt : 2 ^ m - 1 < 2 ^ w := by
      have := Nat.two_pow_pos m
      omega
    rw [hmask, Nat.testBit_two_pow_sub_succ hlt, Nat.testBit_two_pow_sub_one] at hbit
    have hnm : ¬ i < m := by omega
    simpa [hiw, hnm] using hbit
  · exact Nat.testBit_lt_two_pow
      (lt_of_lt_of_le hX (Nat.pow_le_pow_right (by decide) (by omega)))

/-- C12: for every `N ≥ 1` with `2 * N - 1 < 2 ^ w`, `MulOverflowMask<N>` has a
result `M`, and every `size_t` `X` with `X & M = 0` has `X * N < 2 ^ w`: the
product does not overflow `size_t`. -/
theorem MulOverflowMask_no_overflow (w N : Nat) (hN : 1 ≤ N) (hc : 2 * N - 1 < 2 ^ w) :
    ∃ M, MulOverflowMask w N = some M
      ∧ ∀ X, X < 2 ^ w → X &&& M = 0 → X * N < 2 ^ w := by
  by_cases h1 : N = 1
  · subst h1
    refine ⟨0, by simp [MulOverflowMask], ?_⟩
    intro X hX _
    simpa using hX
  · have hN0 : N ≠ 0 := by omega
    have harg : (2 * N % 2 ^ w + 2 ^ w - 1) % 2 ^ w = 2 * N - 1 := by
      rcases Nat.lt_or_ge (2 * N) (2 ^ w) with h2N | h2N
      · rw [Nat.mod_eq_of_lt h2N]
        have : 2 * N + 2 ^ w - 1 = (2 * N - 1) + 2 ^ w := by omega
        rw [this, Nat.add_mod_right, Nat.mod_eq_of_lt hc]
      · have heq : 2 * N = 2 ^ w := by omega
        rw [heq, Nat.mod_self, Nat.zero_add]
        exact Nat.mod_eq_of_lt (by omega)
    obtain ⟨c, hfl, hlo, hhi⟩ := FloorLog2_spec w (2 * N - 1) (by omega) hc
    have hcw : c < w := (Nat.pow_lt_pow_iff_right (by decide)).mp (lt_of_le_of_lt hlo hc)
    have hc1 : 1 ≤ c := by
      rcases Nat.eq_zero_or_pos c with h | h
      · subst h
        simp at hhi
        omega
      · exact h
    have hNc : N ≤ 2 ^ c := by
      rw [pow_succ] at hhi
      omega
    have hwlt : w < 2 ^ w := Nat.lt_two_pow w
    have hsub : (w % 2 ^ w + 2 ^ w - c) % 2 ^ w = w - c := by
      rw [Nat.mod_eq_of_lt hwlt]
      have : w + 2 ^ w - c = (w - c) + 2 ^ w := by omega
      rw [this, Nat.add_mod_right]
      exact Nat.mod_eq_of_lt (by omega)
    have hpm : 2 ^ (w - c) < 2 ^ w := Nat.pow_lt_pow_right (by decide) (by omega)
    have hmask : NBitMask w (w - c) = some (2 ^ (w - c) - 1) := by
      unfold NBitMask
      have hne : w - c ≠ w := by omega
      have hlt : w - c < w := by omega
      rw [if_neg hne, if_pos hlt, Nat.shiftLeft_eq, Nat.one_mul, Nat.mod_eq_of_lt hpm]
      have hp := Nat.two_pow_pos (w - c)
      have : 2 ^ (w - c) + 2 ^ w - 1 = (2 ^ (w - c) - 1) + 2 ^ w := by omega
      rw [this, Nat.add_mod_right, Nat.mod_eq_of_lt (by omega)]
    refine ⟨2 ^ w - 1 - (2 ^ (w - c) - 1), ?_, ?_⟩
    · unfold MulOverflowMask CeilingLog2
      rw [if_neg hN0, if_neg h1, harg, hfl]
      simp only [hsub, hmask]
    · intro X hX hand
      have hXm : X < 2 ^ (w - c) := lt_of_and_not_mask w (w - c) X hX hand
      calc X * N ≤ X * 2 ^ c := Nat.mul_le_mul_left X hNc
        _ < 2 ^ (w - c) * 2 ^ c := Nat.mul_lt_mul_of_pos_right hXm (Nat.two_pow_pos c)
        _ = 2 ^ w := by rw [← pow_add, Nat.sub_add_cancel hcw.le]

/-- Witness for C12: `w = 8` and `N = 3`, where the mask is `192`. -/
theorem MulOverflowMask_no_overflow_witness :
    ∃ M, MulOverflowMask 8 3 = some M
      ∧ ∀ X, X < 2 ^ 8 → X &&& M = 0 → X * 3 < 2 ^ 8 :=
  MulOverflowMask_no_overflow 8 3 (by decide) (by decide)

end tl

end js
